import Mathlib

/-
Shallow embedding of the data structures in akapne01/data-structures-in-rust.

Covered source files:
  src/hasher_trait.rs        : KeyToIndexHasherTrait::get_index, DEFAULT_MAX_SIZE
  src/hash_map.rs            : HashMap { current_size, array }, insert, get, remove, clear
  src/singly_linked_list.rs  : SinglyLinkedList structural operations

Modelling conventions:
  - Rust usize/u64 become Nat.  The only subtraction is current_size -= 1 in
    remove, which the source executes only after a key was found in a chain;
    Nat truncated subtraction coincides with usize subtraction whenever
    current_size > 0, which holds in every state the subtraction is reached
    from in the scenarios and invariants proved below.
  - std::collections::LinkedList<(K, V)> becomes List (K × V).
  - The fixed array [Option<LinkedList<(K,V)>>; 256] becomes a function
    Nat → Option (List (K × V)); HashMap::new initialises every slot to none
    and operations only ever write at indices produced by get_index,
    which are < 256.
  - std::collections::hash_map::DefaultHasher (SipHash, externally defined in
    the Rust standard library, fixed seed, deterministic within a run) is an
    abstract parameter hash : K → Nat; get_index is the modular reduction the
    trait performs on top of it.
  - A Rust panic is modelled by an absent result: Option for HashMap::clear
    (whose body is todo!(), an unconditional panic) and Except String for the
    SinglyLinkedList operations that call a panicking macro, carrying the
    panic message.
-/

/-- Constant `DEFAULT_MAX_SIZE` from src/hasher_trait.rs. -/
def DEFAULT_MAX_SIZE : Nat := 256

/-- Method `KeyToIndexHasherTrait::get_index` from src/hasher_trait.rs:
hash the key with the (abstractly modelled) DefaultHasher, then reduce
modulo `DEFAULT_MAX_SIZE`. -/
def get_index {K : Type} (hash : K → Nat) (key : K) : Nat :=
  hash key % DEFAULT_MAX_SIZE

/-- Function `find_index_linked_list` from src/hash_map.rs: linear scan returning the
position of the first entry whose key equals `key`. -/
def find_index_linked_list {K V : Type} [DecidableEq K]
    (list : List (K × V)) (key : K) : Option Nat :=
  match list with
  | [] => none
  | (k, _) :: rest =>
      if k = key then some 0
      else (find_index_linked_list rest key).map (· + 1)

/-- The struct `HashMap<K, V>` from src/hash_map.rs: a size counter and the
fixed table of optional bucket chains. -/
structure HashMap (K V : Type) where
  current_size : Nat
  array : Nat → Option (List (K × V))

namespace HashMap

/-- Pointwise update of the table at one index (the effect of the Rust
assignments `self.array[index] = ...` and of mutating the chain in place). -/
def upd {K V : Type} (f : Nat → Option (List (K × V))) (i : Nat)
    (x : Option (List (K × V))) : Nat → Option (List (K × V)) :=
  fun j => if j = i then x else f j

/-- The scan `list.iter().find(|(k, _v)| *k == key)` used by insert, get and
remove in src/hash_map.rs. -/
def find_in_list {K V : Type} [DecidableEq K]
    (list : List (K × V)) (key : K) : Option (K × V) :=
  match list with
  | [] => none
  | (k, v) :: rest => if k = key then some (k, v) else find_in_list rest key

/-- The in-place overwrite `*node = (key, value)` performed by insert on the
first entry whose key matches. -/
def replace_first {K V : Type} [DecidableEq K]
    (list : List (K × V)) (key : K) (value : V) : List (K × V) :=
  match list with
  | [] => []
  | (k, v) :: rest =>
      if k = key then (key, value) :: rest
      else (k, v) :: replace_first rest key value

/-- Rust `HashMap::new`: size 0, every table slot absent. -/
def new {K V : Type} : HashMap K V :=
  { current_size := 0, array := fun _ => none }

/-- Rust `HashMap::is_empty`. -/
def is_empty {K V : Type} (m : HashMap K V) : Bool :=
  m.current_size == 0

/-- Rust `HashMap::insert` from src/hash_map.rs.  If the slot holds a chain and the
key is found there, the matching node is overwritten and the old value
returned (early return: size untouched); otherwise the pair is appended to the
chain, or a fresh one-element chain is created at an absent slot, and in both
of those paths the fall-through code increments `current_size` and returns
none. -/
def insert {K V : Type} [DecidableEq K] (hash : K → Nat)
    (m : HashMap K V) (key : K) (value : V) : Option V × HashMap K V :=
  match m.array (get_index hash key) with
  | some list =>
      match find_in_list list key with
      | some (_, old_value) =>
          (some old_value,
           { m with array := upd m.array (get_index hash key)
                               (some (replace_first list key value)) })
      | none =>
          (none,
           { m with array := upd m.array (get_index hash key)
                               (some (list ++ [(key, value)])),
                    current_size := m.current_size + 1 })
  | none =>
      (none,
       { m with array := upd m.array (get_index hash key)
                           (some [(key, value)]),
                current_size := m.current_size + 1 })

/-- Rust `HashMap::get` from src/hash_map.rs: look up the chain at the index of the key
and return the value of the first entry whose key matches, if any. -/
def get {K V : Type} [DecidableEq K] (hash : K → Nat)
    (m : HashMap K V) (key : K) : Option V :=
  match m.array (get_index hash key) with
  | some list => (find_in_list list key).map Prod.snd
  | none => none

/-- Rust `HashMap::remove` from src/hash_map.rs.  The value of the first matching
entry is recorded, then `find_index_linked_list` locates its position i.
When i is not 0 the source removes exactly the entry at i by
`split_off(i)` (the chain keeps entries [0, i)), `pop_front()` on the split
(dropping entry i) and `append` (reattaching entries [i+1, ..)) — i.e. the
chain becomes take i ++ drop (i+1).  When i is 0 the source executes
`self.array[index] = None`, discarding the ENTIRE chain, not only entry 0.
In both cases `current_size` is decremented by exactly 1. -/
def remove {K V : Type} [DecidableEq K] (hash : K → Nat)
    (m : HashMap K V) (key : K) : Option V × HashMap K V :=
  match m.array (get_index hash key) with
  | none => (none, m)
  | some list =>
      match find_index_linked_list list key with
      | none => ((find_in_list list key).map Prod.snd, m)
      | some index_to_remove =>
          if index_to_remove ≠ 0 then
            ((find_in_list list key).map Prod.snd,
             { m with array := upd m.array (get_index hash key)
                         (some (list.take index_to_remove ++
                                list.drop (index_to_remove + 1))),
                      current_size := m.current_size - 1 })
          else
            ((find_in_list list key).map Prod.snd,
             { m with array := upd m.array (get_index hash key) none,
                      current_size := m.current_size - 1 })

/-- Rust `HashMap::clear` from src/hash_map.rs.  Its body is the macro todo!(),
which panics unconditionally ("not yet implemented"); no reset of the table or
the counter is ever performed.  The panic is modelled as `none`: the operation
never produces a map. -/
def clear {K V : Type} (_ : HashMap K V) : Option (HashMap K V) :=
  none

/-- Total number of entries stored across all 256 bucket chains of the table
(the quantity the spec says `current_size` tracks). -/
def total_entries {K V : Type} (m : HashMap K V) : Nat :=
  ((List.range DEFAULT_MAX_SIZE).map
    (fun i => ((m.array i).map List.length).getD 0)).sum

/-- One client-visible map operation, for reachability statements. -/
inductive Op (K V : Type) where
  | ins (key : K) (value : V)
  | qry (key : K)
  | del (key : K)

/-- State transition of one operation: `get` leaves the map unchanged,
`insert` and `remove` replace it by their updated map. -/
def apply_op {K V : Type} [DecidableEq K] (hash : K → Nat)
    (m : HashMap K V) : Op K V → HashMap K V
  | Op.ins key value => (insert hash m key value).2
  | Op.qry _ => m
  | Op.del key => (remove hash m key).2

/-- The map reached from `HashMap::new` by a sequence of operations. -/
def run_ops {K V : Type} [DecidableEq K] (hash : K → Nat)
    (ops : List (Op K V)) : HashMap K V :=
  ops.foldl (apply_op hash) new

/-- Invariant: no table slot holds a present-but-empty chain. -/
def buckets_nonempty {K V : Type} (m : HashMap K V) : Prop :=
  ∀ i l, m.array i = some l → l ≠ []

end HashMap

/-- Concrete stand-in for DefaultHasher on the keys of the collision scenario,
consistent with the facts the tests of the repository assert about it:
get_index "A" = 163 (src/hasher_trait.rs test get_index_string) and
"K", "Q" hash to the same index, different from "A" (src/hash_map.rs tests
when_two_different_keys_map_to_same_index, test_get_when_collision_of_indexes). -/
def testHash : String → Nat :=
  fun s => if s = "A" then 163 else if s = "K" then 200 else if s = "Q" then 200 else 0

/-- The spec scenario: insert ("A","Value A"), ("K","Value K"), ("Q","Value Q")
into a fresh map; "K" and "Q" collide in bucket 200, in that chain order. -/
def scenario_map : HashMap String String :=
  (HashMap.insert testHash
    (HashMap.insert testHash
      (HashMap.insert testHash HashMap.new "A" "Value A").2
      "K" "Value K").2
    "Q" "Value Q").2

/-- The scenario map after `remove("K")`. -/
def scenario_after_remove : HashMap String String :=
  (HashMap.remove testHash scenario_map "K").2

namespace SinglyLinkedList

/-
src/singly_linked_list.rs stores a chain of boxed nodes
(`first : Option<Box<Node<T>>>`, each node owning its successor); the chain is
embedded as List T.  The finder methods return a mutable reference into the
chain; each operation below is the net transformation of the whole chain that
the pointer manipulation of the source performs, written as a function on lists.
-/

/-- Splits the chain at the first node holding `data` (the node `find_node`
returns): `some (pre, suf)` with chain = pre ++ data :: suf and `data` not in
`pre`; `none` when `find_node` finds nothing. -/
def splitAtFirst {T : Type} [DecidableEq T] (l : List T) (data : T) :
    Option (List T × List T) :=
  match l with
  | [] => none
  | x :: xs =>
      if x = data then some ([], xs)
      else (splitAtFirst xs data).map (fun p => (x :: p.1, p.2))

/-- Splits the chain at the node `find_previous_node` returns — the first node
whose successor holds `given`: `some (pre, prev, suf)` with
chain = pre ++ prev :: suf and `suf` starting with `given`; `none` when no
node has such a successor (in particular on an empty or singleton chain, or
when `given` only occurs at the head). -/
def find_previous_split {T : Type} [DecidableEq T] (l : List T) (given : T) :
    Option (List T × T × List T) :=
  match l with
  | [] => none
  | [_] => none
  | a :: b :: rest =>
      if b = given then some ([], a, b :: rest)
      else (find_previous_split (b :: rest) given).map
        (fun p => (a :: p.1, p.2.1, p.2.2))

/-- Rust `SinglyLinkedList::is_empty`. -/
def is_empty {T : Type} (l : List T) : Bool :=
  l.isEmpty

/-- Rust `SinglyLinkedList::delete_first`: panics on an empty chain, otherwise the
head node is dropped (`first = first.take().unwrap().next`). -/
def delete_first {T : Type} (l : List T) : Except String (List T) :=
  match l with
  | [] => Except.error "Cannot delete the first element from an empty list!"
  | _ :: rest => Except.ok rest

/-- Rust `SinglyLinkedList::delete_last`: `find_before_last` returns the node whose
successor is the last node (absent on chains of fewer than two nodes, so both
the empty and the singleton chain panic, with the empty-list message); when
present, its `next` is set to none, dropping exactly the last node. -/
def delete_last {T : Type} (l : List T) : Except String (List T) :=
  match l with
  | [] => Except.error "Cannot delete the last element from an empty list!"
  | [_] => Except.error "Cannot delete the last element from an empty list!"
  | [a, _] => Except.ok [a]
  | a :: b :: c :: rest => (delete_last (b :: c :: rest)).map (fun t => a :: t)

/-- Rust `SinglyLinkedList::insert_after_given`: panics on an empty chain; panics
when `find_node` does not find `given_data` (the source message interpolates
the missing value, elided here); otherwise links a new node holding `data`
directly after the found node (`new.next = node.next.take(); node.next = new`). -/
def insert_after_given {T : Type} [DecidableEq T] (l : List T)
    (data given_data : T) : Except String (List T) :=
  if is_empty l then
    Except.error "List is empty, this action is not possible."
  else
    match splitAtFirst l given_data with
    | some (pre, suf) => Except.ok (pre ++ given_data :: data :: suf)
    | none => Except.error "Given node not found in the list!"

/-- Rust `SinglyLinkedList::insert_before_given`: panics on an empty chain; panics
when `find_previous_node` finds no node whose successor holds `given_data`
(message interpolation elided); otherwise links a new node holding `data`
between that node and its successor. -/
def insert_before_given {T : Type} [DecidableEq T] (l : List T)
    (data given_data : T) : Except String (List T) :=
  if is_empty l then
    Except.error "List is empty, this action is not possible."
  else
    match find_previous_split l given_data with
    | some (pre, prev, suf) => Except.ok (pre ++ prev :: data :: suf)
    | none => Except.error "Given node not found in the list!"

/-- Rust `SinglyLinkedList::delete_node_with_data`: panics when `find_node` finds
no node holding `data`.  Otherwise, with chain = pre ++ data :: suf at the
first occurrence, the source first takes the `next` of the found node (`reference`,
= suf), leaving the chain as pre ++ [data], then calls `find_previous_node`
on that mutated chain: it yields the last node of `pre` when `pre` is
non-empty — whose `next` is then set to `reference`, giving pre ++ suf — and
yields nothing when `pre` is empty, in which case the source sets
`self.first = None`, discarding `reference` and leaving the chain EMPTY. -/
def delete_node_with_data {T : Type} [DecidableEq T] (l : List T)
    (data : T) : Except String (List T) :=
  match splitAtFirst l data with
  | none => Except.error "Node with given data not found!"
  | some ([], _) => Except.ok []
  | some (pre, suf) => Except.ok (pre ++ suf)

end SinglyLinkedList

/-! Helper lemmas. -/

theorem HashMap.upd_self {K V : Type} (f : Nat → Option (List (K × V))) (i : Nat)
    (x : Option (List (K × V))) : HashMap.upd f i x i = x := by
  simp [HashMap.upd]

theorem HashMap.upd_other {K V : Type} (f : Nat → Option (List (K × V))) (i : Nat)
    (x : Option (List (K × V))) (j : Nat) (h : j ≠ i) : HashMap.upd f i x j = f j := by
  simp [HashMap.upd, h]

theorem HashMap.find_in_list_replace_first {K V : Type} [DecidableEq K]
    (l : List (K × V)) (key : K) (v : V)
    (h : (HashMap.find_in_list l key).isSome) :
    HashMap.find_in_list (HashMap.replace_first l key v) key = some (key, v) := by
  induction l with
  | nil => simp [HashMap.find_in_list] at h
  | cons p rest ih =>
      obtain ⟨k, w⟩ := p
      by_cases hk : k = key
      · simp [HashMap.find_in_list, HashMap.replace_first, hk]
      · simp [HashMap.find_in_list, HashMap.replace_first, hk] at h ⊢
        exact ih h

theorem HashMap.replace_first_ne_nil {K V : Type} [DecidableEq K]
    (l : List (K × V)) (key : K) (v : V) (h : l ≠ []) :
    HashMap.replace_first l key v ≠ [] := by
  cases l with
  | nil => exact absurd rfl h
  | cons p rest =>
      obtain ⟨k, w⟩ := p
      by_cases hk : k = key <;> simp [HashMap.replace_first, hk]

theorem List.take_ne_nil_of_ne {T : Type} (l : List T) (n : Nat)
    (hn : n ≠ 0) (hl : l ≠ []) : l.take n ≠ [] := by
  cases l with
  | nil => exact absurd rfl hl
  | cons x xs =>
      cases n with
      | zero => exact absurd rfl hn
      | succ m => simp

theorem HashMap.buckets_nonempty_new {K V : Type} :
    HashMap.buckets_nonempty (HashMap.new : HashMap K V) := by
  intro i l h
  simp [HashMap.new] at h

theorem HashMap.buckets_nonempty_insert {K V : Type} [DecidableEq K]
    (hash : K → Nat) (m : HashMap K V) (key : K) (value : V)
    (hm : HashMap.buckets_nonempty m) :
    HashMap.buckets_nonempty (HashMap.insert hash m key value).2 := by
  intro i l h
  cases hslot : m.array (get_index hash key) with
  | none =>
      simp [HashMap.insert, hslot, HashMap.upd] at h
      by_cases hi : i = get_index hash key
      · simp [hi] at h
        simp [← h]
      · simp [hi] at h
        exact hm i l h
  | some list =>
      cases hfind : HashMap.find_in_list list key with
      | none =>
          simp [HashMap.insert, hslot, hfind, HashMap.upd] at h
          by_cases hi : i = get_index hash key
          · simp [hi] at h
            simp [← h]
          · simp [hi] at h
            exact hm i l h
      | some p =>
          obtain ⟨k0, v0⟩ := p
          simp [HashMap.insert, hslot, hfind, HashMap.upd] at h
          by_cases hi : i = get_index hash key
          · simp [hi] at h
            have : list ≠ [] := hm _ _ hslot
            rw [← h]
            exact HashMap.replace_first_ne_nil list key value this
          · simp [hi] at h
            exact hm i l h

theorem HashMap.buckets_nonempty_remove {K V : Type} [DecidableEq K]
    (hash : K → Nat) (m : HashMap K V) (key : K)
    (hm : HashMap.buckets_nonempty m) :
    HashMap.buckets_nonempty (HashMap.remove hash m key).2 := by
  intro i l h
  cases hslot : m.array (get_index hash key) with
  | none =>
      simp [HashMap.remove, hslot] at h
      exact hm i l h
  | some list =>
      cases hidx : find_index_linked_list list key with
      | none =>
          simp [HashMap.remove, hslot, hidx] at h
          exact hm i l h
      | some n =>
          by_cases hn : n = 0
          · simp [HashMap.remove, hslot, hidx, hn, HashMap.upd] at h
            by_cases hi : i = get_index hash key
            · simp [hi] at h
            · simp [hi] at h
              exact hm i l h
          · simp [HashMap.remove, hslot, hidx, hn, HashMap.upd] at h
            by_cases hi : i = get_index hash key
            · simp [hi] at h
              have hlist : list ≠ [] := hm _ _ hslot
              have htake : list.take n ≠ [] := List.take_ne_nil_of_ne list n hn hlist
              rw [← h]
              simp [htake]
            · simp [hi] at h
              exact hm i l h

theorem HashMap.buckets_nonempty_apply_op {K V : Type} [DecidableEq K]
    (hash : K → Nat) (m : HashMap K V) (op : HashMap.Op K V)
    (hm : HashMap.buckets_nonempty m) :
    HashMap.buckets_nonempty (HashMap.apply_op hash m op) := by
  cases op with
  | ins key value => exact HashMap.buckets_nonempty_insert hash m key value hm
  | qry key => exact hm
  | del key => exact HashMap.buckets_nonempty_remove hash m key hm

theorem HashMap.buckets_nonempty_foldl {K V : Type} [DecidableEq K]
    (hash : K → Nat) (ops : List (HashMap.Op K V)) :
    ∀ (m : HashMap K V), HashMap.buckets_nonempty m →
      HashMap.buckets_nonempty (ops.foldl (HashMap.apply_op hash) m) := by
  induction ops with
  | nil => exact fun m hm => hm
  | cons op rest ih =>
      intro m hm
      exact ih (HashMap.apply_op hash m op)
        (HashMap.buckets_nonempty_apply_op hash m op hm)

theorem SinglyLinkedList.splitAtFirst_of_not_mem {T : Type} [DecidableEq T] :
    ∀ (l : List T) (d : T), d ∉ l → SinglyLinkedList.splitAtFirst l d = none
  | [], _, _ => rfl
  | x :: xs, d, h => by
      have hx : ¬(x = d) := fun e => h (by simp [e])
      have hrec := SinglyLinkedList.splitAtFirst_of_not_mem xs d
        (fun e => h (List.mem_cons_of_mem x e))
      simp [SinglyLinkedList.splitAtFirst, hx, hrec]

theorem SinglyLinkedList.find_previous_split_of_not_mem {T : Type} [DecidableEq T] :
    ∀ (l : List T) (g : T), g ∉ l → SinglyLinkedList.find_previous_split l g = none
  | [], _, _ => rfl
  | [_], _, _ => rfl
  | a :: b :: rest, g, h => by
      have hb : ¬(b = g) := fun e => h (by simp [e])
      have hrec := SinglyLinkedList.find_previous_split_of_not_mem (b :: rest) g
        (fun e => h (List.mem_cons_of_mem a e))
      simp [SinglyLinkedList.find_previous_split, hb, hrec]

/-! Claim theorems. -/

/-- C1: evaluation of the spec collision scenario on the code.  After
inserting ("A","Value A"), ("K","Value K"), ("Q","Value Q"), with "K" and "Q"
colliding in one bucket, size is 3 and "Q" is retrievable; remove("K")
returns "Value K" and leaves size 2 and "A" retrievable, but — contrary to
the claim — "Q" is NOT retrievable any more: the head-of-chain removal path
of HashMap::remove discards the entire bucket, so the colliding key is not
unaffected. -/
theorem hashmap_scenario_remove_collision_head_eval :
    scenario_map.current_size = 3 ∧
    HashMap.get testHash scenario_map "Q" = some "Value Q" ∧
    (HashMap.remove testHash scenario_map "K").1 = some "Value K" ∧
    scenario_after_remove.current_size = 2 ∧
    HashMap.get testHash scenario_after_remove "A" = some "Value A" ∧
    HashMap.get testHash scenario_after_remove "Q" = none := by
  decide

/-- C2: the claim fails on the code — the body of HashMap::clear is the
todo!() macro, which panics unconditionally (modelled as none) on every map
state; it never produces the map with all slots absent and size 0 that the
claim describes. -/
theorem hashmap_clear_never_returns_map (K V : Type) (m : HashMap K V) :
    HashMap.clear m = none := rfl

/-- C3: the claim fails on the code — clear panics on any map, here on the
fresh map, because its body is todo!() (modelled: no result is ever
produced), so not every one of insert, get, remove, clear is panic-free;
insert, get and remove themselves are embedded as total functions. -/
theorem hashmap_clear_panics_on_new_map :
    HashMap.clear (HashMap.new : HashMap String String) = none := rfl

set_option maxRecDepth 4096 in
/-- C4: evaluation at the failing input.  In the state reached from a new map
by inserting "A", "K", "Q" (with "K" and "Q" colliding) and then removing
"K", the counter current_size is 2 while the table chains hold only 1 entry
in total: the claimed counter invariant fails, because the head-of-chain
removal discards a whole bucket while decrementing the counter by only 1. -/
theorem hashmap_size_counter_mismatch_eval :
    scenario_after_remove.current_size = 2 ∧
    HashMap.total_entries scenario_after_remove = 1 := by
  decide

/-- C5: for every map state and every key that does not occur in the chain at
its bucket index (in particular every key never inserted), get returns none,
and insert returns none and increments current_size by exactly 1. -/
theorem hashmap_fresh_key_get_none_insert_increments
    (K V : Type) [DecidableEq K] (hash : K → Nat) (m : HashMap K V)
    (key : K) (v : V)
    (habsent : ∀ l, m.array (get_index hash key) = some l →
      HashMap.find_in_list l key = none) :
    HashMap.get hash m key = none ∧
    (HashMap.insert hash m key v).1 = none ∧
    (HashMap.insert hash m key v).2.current_size = m.current_size + 1 := by
  cases hslot : m.array (get_index hash key) with
  | none => simp [HashMap.get, HashMap.insert, hslot]
  | some l =>
      have hf := habsent l hslot
      simp [HashMap.get, HashMap.insert, hslot, hf]

/-- Witness for C5 at the fresh map and key "B". -/
theorem hashmap_fresh_key_get_none_insert_increments_witness :
    HashMap.get testHash (HashMap.new : HashMap String String) "B" = none ∧
    (HashMap.insert testHash (HashMap.new : HashMap String String) "B" "Value B").1 = none ∧
    (HashMap.insert testHash (HashMap.new : HashMap String String) "B" "Value B").2.current_size =
      (HashMap.new : HashMap String String).current_size + 1 :=
  hashmap_fresh_key_get_none_insert_increments String String testHash
    HashMap.new "B" "Value B" (fun l hl => by simp [HashMap.new] at hl)

/-- C6: for every map state in which the chain at the bucket index of a key
contains that key with value v1 (as its first match), inserting v2 under the
key returns some v1, leaves current_size unchanged, and a subsequent get
returns some v2. -/
theorem hashmap_insert_existing_key_updates_in_place
    (K V : Type) [DecidableEq K] (hash : K → Nat) (m : HashMap K V) (key : K)
    (l : List (K × V)) (k0 : K) (v1 : V)
    (hslot : m.array (get_index hash key) = some l)
    (hfind : HashMap.find_in_list l key = some (k0, v1)) (v2 : V) :
    (HashMap.insert hash m key v2).1 = some v1 ∧
    (HashMap.insert hash m key v2).2.current_size = m.current_size ∧
    HashMap.get hash (HashMap.insert hash m key v2).2 key = some v2 := by
  have hrepl : HashMap.find_in_list (HashMap.replace_first l key v2) key
      = some (key, v2) :=
    HashMap.find_in_list_replace_first l key v2 (by simp [hfind])
  refine ⟨?_, ?_, ?_⟩ <;>
    simp [HashMap.insert, HashMap.get, hslot, hfind, HashMap.upd, hrepl]

/-- Witness for C6: overwriting key "A" in the scenario map. -/
theorem hashmap_insert_existing_key_updates_in_place_witness :
    (HashMap.insert testHash scenario_map "A" "New Value A").1 = some "Value A" ∧
    (HashMap.insert testHash scenario_map "A" "New Value A").2.current_size =
      scenario_map.current_size ∧
    HashMap.get testHash (HashMap.insert testHash scenario_map "A" "New Value A").2 "A" =
      some "New Value A" :=
  hashmap_insert_existing_key_updates_in_place String String testHash
    scenario_map "A" [("A", "Value A")] "A" "Value A"
    (by decide) (by decide) "New Value A"

/-- C7: for every hash function and key, get_index returns a value in
[0, 256) and equals hash(key) mod DEFAULT_MAX_SIZE; being a function of the
key alone, it is pure and deterministic by construction of the embedding. -/
theorem hashmap_get_index_in_range_mod_formula (K : Type)
    (hash : K → Nat) (key : K) :
    get_index hash key < DEFAULT_MAX_SIZE ∧
    get_index hash key = hash key % DEFAULT_MAX_SIZE :=
  ⟨Nat.mod_lt _ (by decide), rfl⟩

/-- C8: in every map state reachable from a new map by any sequence of
insert, get and remove operations, no table slot holds a present-but-empty
chain: every present bucket chain is non-empty. -/
theorem hashmap_no_empty_bucket_reachable (K V : Type) [DecidableEq K]
    (hash : K → Nat) (ops : List (HashMap.Op K V)) :
    HashMap.buckets_nonempty (HashMap.run_ops hash ops) :=
  HashMap.buckets_nonempty_foldl hash ops HashMap.new HashMap.buckets_nonempty_new

/-- Witness for C8 at the one-insert operation sequence and the bucket of "A". -/
theorem hashmap_no_empty_bucket_reachable_witness :
    ([("A", "Value A")] : List (String × String)) ≠ [] :=
  hashmap_no_empty_bucket_reachable String String testHash
    [HashMap.Op.ins "A" "Value A"] (get_index testHash "A")
    [("A", "Value A")] (by decide)

/-- C9: on the empty list, delete_first, delete_last, insert_after_given and
insert_before_given all abort with a descriptive failure (the panic message
of the source), and on a non-empty list whose elements do not include the
reference element, insert_after_given and insert_before_given likewise abort
with a descriptive failure instead of silently ignoring the call. -/
theorem linked_list_structural_ops_abort (T : Type) [DecidableEq T]
    (data given x : T) (xs : List T) :
    SinglyLinkedList.delete_first ([] : List T) =
      Except.error "Cannot delete the first element from an empty list!" ∧
    SinglyLinkedList.delete_last ([] : List T) =
      Except.error "Cannot delete the last element from an empty list!" ∧
    SinglyLinkedList.insert_after_given ([] : List T) data given =
      Except.error "List is empty, this action is not possible." ∧
    SinglyLinkedList.insert_before_given ([] : List T) data given =
      Except.error "List is empty, this action is not possible." ∧
    (given ∉ x :: xs →
      SinglyLinkedList.insert_after_given (x :: xs) data given =
        Except.error "Given node not found in the list!") ∧
    (given ∉ x :: xs →
      SinglyLinkedList.insert_before_given (x :: xs) data given =
        Except.error "Given node not found in the list!") := by
  refine ⟨rfl, rfl, rfl, rfl, ?_, ?_⟩
  · intro h
    simp [SinglyLinkedList.insert_after_given, SinglyLinkedList.is_empty,
      SinglyLinkedList.splitAtFirst_of_not_mem (x :: xs) given h]
  · intro h
    simp [SinglyLinkedList.insert_before_given, SinglyLinkedList.is_empty,
      SinglyLinkedList.find_previous_split_of_not_mem (x :: xs) given h]

/-- Witness for C9: inserting relative to the absent element 2 in the list
[1] aborts with the not-found failure on both operations. -/
theorem linked_list_structural_ops_abort_witness :
    SinglyLinkedList.insert_after_given ([1] : List Nat) 0 2 =
      Except.error "Given node not found in the list!" ∧
    SinglyLinkedList.insert_before_given ([1] : List Nat) 0 2 =
      Except.error "Given node not found in the list!" :=
  ⟨(linked_list_structural_ops_abort Nat 0 2 1 []).2.2.2.2.1 (by decide),
   (linked_list_structural_ops_abort Nat 0 2 1 []).2.2.2.2.2 (by decide)⟩

/-- C10: for every list of at least two elements whose head holds the target
data, delete_node_with_data empties the entire list: after detaching the
successor chain of the found head node, find_previous_node finds no
predecessor, and the source then sets the list head to absent, discarding
every remaining element. -/
theorem linked_list_delete_head_data_empties_list (T : Type) [DecidableEq T]
    (d x : T) (rest : List T) :
    SinglyLinkedList.delete_node_with_data (d :: x :: rest) d = Except.ok [] := by
  simp [SinglyLinkedList.delete_node_with_data, SinglyLinkedList.splitAtFirst]

/-- Witness for C2 at the scenario map. -/
theorem hashmap_clear_never_returns_map_witness :
    HashMap.clear scenario_map = none :=
  hashmap_clear_never_returns_map String String scenario_map

/-- Witness for C7 at the test hash function and key "A". -/
theorem hashmap_get_index_in_range_mod_formula_witness :
    get_index testHash "A" < DEFAULT_MAX_SIZE ∧
    get_index testHash "A" = testHash "A" % DEFAULT_MAX_SIZE :=
  hashmap_get_index_in_range_mod_formula String testHash "A"

/-- Witness for C10 at the two-element list [0, 1] with target 0 at the head. -/
theorem linked_list_delete_head_data_empties_list_witness :
    SinglyLinkedList.delete_node_with_data ([0, 1] : List Nat) 0 = Except.ok [] :=
  linked_list_delete_head_data_empties_list Nat 0 1 []
